import Mathlib

/-!
Verification of the message-submission pipeline of the DoubtGPT chat UI.

The repository has two variants of the `ChatInterface` component:
* a text-only variant (model `gemini-2.0-flash-exp`, with a fixed tutoring
  system instruction, no retry loop), embedded below in namespace `TextChat`;
* an image-capable variant (model `gemini-pro`, no system instruction, a
  bounded retry loop on HTTP 429), embedded at top level.

The stateful pipeline is embedded as a pure function that, given an adapter
oracle (mapping attempt index to outcome of `model.generateContent`), a query,
an optional image file and the prior view state, returns the final view state
together with the ordered trace of observable events: loading-flag writes,
message appends, outbound API calls, retry delays and toast notifications.
-/

/-- A chat turn: `{ content, isUser, image? }` from the `Message` interface. -/
structure Message where
  content : String
  isUser : Bool
  image : Option String
deriving DecidableEq, Repr

/-- The component view state: the message list and the loading flag. -/
structure ChatState where
  messages : List Message
  isLoading : Bool
deriving DecidableEq, Repr

/-- A toast notification, as passed to `toast({...})`. -/
structure Toast where
  title : Option String
  description : String
  variant : Option String
  duration : Option Nat
deriving DecidableEq, Repr

/-- An error thrown by the adapter; only its `status` field is inspected
(`error.status === 429`), and `status` may be absent. -/
structure ApiError where
  status : Option Nat
deriving DecidableEq, Repr

/-- Outcome of one `model.generateContent` call: the response text, or a
thrown error. -/
inductive ApiOutcome where
  | ok (text : String)
  | err (e : ApiError)
deriving DecidableEq, Repr

/-- The request shape of one outbound call: a plain prompt string, or an
inline-data part (raw base64 payload, possibly absent when the data-URL has
no comma, plus MIME type) followed by a prompt string. -/
inductive RequestPayload where
  | textOnly (prompt : String)
  | multimodal (data : Option String) (mimeType : String) (prompt : String)
deriving DecidableEq, Repr

/-- One outbound request: the model identifier passed to
`getGenerativeModel`, whether the fixed tutoring system instruction was
attached, and the payload. -/
structure ApiRequest where
  model : String
  hasSystemInstruction : Bool
  payload : RequestPayload
deriving DecidableEq, Repr

/-- A user-selected image file together with the environment-determined
results of the two operations performed on it: `URL.createObjectURL` (the
display reference) and the `FileReader` data-URL read, which may reject. -/
structure ImageFile where
  mimeType : String
  objectUrl : String
  encodeResult : Except Unit String
deriving Repr

/-- `convertImageToBase64`: resolves with the data-URL string produced by
`FileReader.readAsDataURL`, or rejects if the read fails. -/
def convertImageToBase64 (file : ImageFile) : Except Unit String :=
  file.encodeResult

/-- Observable events of one pipeline run, in program order. -/
inductive Event where
  | setLoading (b : Bool)
  | appendMsg (m : Message)
  | apiCall (r : ApiRequest)
  | doDelay (ms : Nat)
  | showToast (t : Toast)
deriving DecidableEq, Repr

/-- Whether an event is a write to the loading flag. -/
def Event.isSetLoading : Event → Bool
  | .setLoading _ => true
  | _ => false

/-- The outbound requests recorded in a trace. -/
def requestsOf (tr : List Event) : List ApiRequest :=
  tr.filterMap fun e => match e with | .apiCall r => some r | _ => none

/-- The retry delays (in milliseconds) recorded in a trace. -/
def delaysOf (tr : List Event) : List Nat :=
  tr.filterMap fun e => match e with | .doDelay ms => some ms | _ => none

/-- The messages appended during a trace, in order. -/
def appendsOf (tr : List Event) : List Message :=
  tr.filterMap fun e => match e with | .appendMsg m => some m | _ => none

/-- The toast notifications shown during a trace, in order. -/
def toastsOf (tr : List Event) : List Toast :=
  tr.filterMap fun e => match e with | .showToast t => some t | _ => none

/-- The generic failure notification text. -/
def genericMessage : String := "Failed to generate response. Please try again."

/-- The rate-limit-specific failure notification text. -/
def rateLimitMessage : String :=
  "We've hit the API rate limit. Please try again in a few minutes."

/-- The destructive error toast shown on pipeline failure. -/
def errorToast (msg : String) : Toast :=
  ⟨some "Error", msg, some "destructive", none⟩

/-- The confirmation toast shown by the clear-chat action. -/
def clearToast : Toast :=
  ⟨none, "Chat history cleared", none, some 2000⟩

/-- Splits a character list at every comma, the JS `String.split(',')`
semantics on the underlying characters. -/
def splitCharsAtComma : List Char → List (List Char)
  | [] => [[]]
  | c :: cs =>
    let rest := splitCharsAtComma cs
    if c = ',' then [] :: rest
    else
      match rest with
      | [] => [[c]]
      | h :: t => (c :: h) :: t

/-- `s.split(',')` of JS: the list of comma-separated fields of `s`. -/
def splitCommas (s : String) : List String :=
  (splitCharsAtComma s.data).map List.asString

/-- The `while (retries > 0)` loop of the image-capable variant, indexed by
the current attempt number and the remaining `retries` budget.  On success it
breaks with the result; on a 429 error with `retries > 1` it decrements,
delays 2000ms and retries; on any other error (or a 429 with no budget left)
it rethrows.  If the loop ever exited with no result, the subsequent
`if (!result)` check throws a status-less error; that branch is unreachable
from the initial budget of 3 but is modelled faithfully at budget 0. -/
def runRetryLoop (adapter : Nat → ApiOutcome) (req : ApiRequest)
    (attempt : Nat) : Nat → Except ApiError String × List Event
  | 0 => (.error ⟨none⟩, [])
  | r + 1 =>
    match adapter attempt with
    | .ok text => (.ok text, [.apiCall req])
    | .err e =>
      if e.status = some 429 ∧ r + 1 > 1 then
        let rest := runRetryLoop adapter req (attempt + 1) r
        (rest.1, .apiCall req :: .doDelay 2000 :: rest.2)
      else (.error e, [.apiCall req])

/-- The tail of `handleSendMessage` after the user message and the request
shape are fixed: run the retry loop, then on success append the assistant
message, on failure show the error toast (rate-limit text iff the final
error has status 429); the loading flag is cleared unconditionally. -/
def sendCore (adapter : Nat → ApiOutcome) (userMsg : Message)
    (req : ApiRequest) (st : ChatState) : ChatState × List Event :=
  let lr := runRetryLoop adapter req 0 3
  match lr.1 with
  | .ok text =>
    ({ messages := st.messages ++ [userMsg, ⟨text, false, none⟩],
        isLoading := false },
      [Event.setLoading true, .appendMsg userMsg] ++ lr.2 ++
        [.appendMsg ⟨text, false, none⟩, .setLoading false])
  | .error e =>
    let msg := if e.status = some 429 then rateLimitMessage
      else genericMessage
    ({ messages := st.messages ++ [userMsg], isLoading := false },
      [Event.setLoading true, .appendMsg userMsg] ++ lr.2 ++
        [.showToast (errorToast msg), .setLoading false])

/-- `handleSendMessage` of the image-capable variant: sets the loading flag,
awaits the image encoding when an image is present (aborting to the error
toast if it rejects), appends the user message (placeholder content when the
query is empty, image reference attached when present), runs the retry loop
around `generateContent` on model `gemini-pro` (multimodal shape when an
image payload is present and truthy, else the plain query string), then
appends the assistant message on success or shows an error toast on failure
(rate-limit text iff the final error has status 429), and clears the loading
flag unconditionally. -/
def handleSendMessage (adapter : Nat → ApiOutcome) (query : String)
    (image : Option ImageFile) (st : ChatState) : ChatState × List Event :=
  let encoded : Except Unit (Option (ImageFile × String)) :=
    match image with
    | none => .ok none
    | some img =>
      match img.encodeResult with
      | .ok b => .ok (some (img, b))
      | .error e => .error e
  match encoded with
  | .error _ =>
    ({ st with isLoading := false },
      [.setLoading true, .showToast (errorToast genericMessage),
        .setLoading false])
  | .ok enc =>
    let userMsg : Message :=
      ⟨if query = "" then "Image analysis request" else query, true,
        enc.map fun p => p.1.objectUrl⟩
    let req : ApiRequest :=
      match enc with
      | some (img, b64) =>
        if b64 = "" then ⟨"gemini-pro", false, .textOnly query⟩
        else
          ⟨"gemini-pro", false,
            .multimodal ((splitCommas b64)[1]?) img.mimeType
              (if query = "" then "Please analyze this image" else query)⟩
      | none => ⟨"gemini-pro", false, .textOnly query⟩
    sendCore adapter userMsg req st

/-- `handleClearChat`: empties the message list and shows a brief
confirmation toast. -/
def handleClearChat (st : ChatState) : ChatState × List Event :=
  ({ st with messages := [] }, [.showToast clearToast])

namespace TextChat

/-- `handleSendMessage` of the text-only variant: sets the loading flag,
appends the user message verbatim, issues one `generateContent` call on model
`gemini-2.0-flash-exp` with the fixed tutoring system instruction, appends
the assistant message on success or shows the generic error toast on
failure, and clears the loading flag unconditionally.  There is no retry
loop and no image handling in this variant. -/
def handleSendMessage (outcome : ApiOutcome) (query : String)
    (st : ChatState) : ChatState × List Event :=
  let userMsg : Message := ⟨query, true, none⟩
  let req : ApiRequest := ⟨"gemini-2.0-flash-exp", true, .textOnly query⟩
  match outcome with
  | .ok text =>
    ({ messages := st.messages ++ [userMsg, ⟨text, false, none⟩],
        isLoading := false },
      [Event.setLoading true, .appendMsg userMsg, .apiCall req,
        .appendMsg ⟨text, false, none⟩, .setLoading false])
  | .err _ =>
    ({ messages := st.messages ++ [userMsg], isLoading := false },
      [Event.setLoading true, .appendMsg userMsg, .apiCall req,
        .showToast (errorToast genericMessage), .setLoading false])

end TextChat

/-- A fault injector that fails with a 429 rate-limit error on the first `k`
attempts and succeeds with `text` from attempt `k` on. -/
def rateLimitInjector (k : Nat) (text : String) : Nat → ApiOutcome :=
  fun n => if n < k then .err ⟨some 429⟩ else .ok text

/-- One scripted submission through the image-capable pipeline whose adapter
call succeeds immediately with `reply`. -/
structure Submission where
  query : String
  image : Option ImageFile
  reply : String

/-- Whether the submission's image (if any) encodes successfully. -/
def Submission.encodes (s : Submission) : Bool :=
  match s.image with
  | none => true
  | some img =>
    match img.encodeResult with
    | .ok _ => true
    | .error _ => false

/-- The user message the pipeline appends for this submission. -/
def Submission.userMessage (s : Submission) : Message :=
  ⟨if s.query = "" then "Image analysis request" else s.query, true,
    s.image.map ImageFile.objectUrl⟩

/-- The assistant message the pipeline appends for this submission. -/
def Submission.assistantMessage (s : Submission) : Message :=
  ⟨s.reply, false, none⟩

/-- Runs a sequence of submissions through the image-capable pipeline, each
adapter call succeeding immediately, threading the view state. -/
def submitAll : List Submission → ChatState → ChatState
  | [], st => st
  | s :: rest, st =>
    submitAll rest
      (handleSendMessage (fun _ => ApiOutcome.ok s.reply) s.query s.image
        st).1

/-- The interleaved call/delay events of `k` rate-limited attempts followed
by one successful attempt. -/
def retryEvents (k : Nat) (req : ApiRequest) : List Event :=
  (List.range k).flatMap (fun _ => [.apiCall req, .doDelay 2000]) ++
    [.apiCall req]


/-! ## Lemmas about the retry loop -/

/-- Unfolding of the retry loop when the current attempt succeeds. -/
theorem runRetryLoop_succ_ok (adapter : Nat → ApiOutcome) (req : ApiRequest)
    (a r : Nat) (t : String) (hA : adapter a = .ok t) :
    runRetryLoop adapter req a (r + 1) = (.ok t, [.apiCall req]) := by
  rw [runRetryLoop, hA]

/-- Unfolding of the retry loop when the current attempt throws. -/
theorem runRetryLoop_succ_err (adapter : Nat → ApiOutcome) (req : ApiRequest)
    (a r : Nat) (er : ApiError) (hA : adapter a = .err er) :
    runRetryLoop adapter req a (r + 1) =
      if er.status = some 429 ∧ r + 1 > 1 then
        ((runRetryLoop adapter req (a + 1) r).1,
          .apiCall req :: .doDelay 2000 ::
            (runRetryLoop adapter req (a + 1) r).2)
      else (.error er, [.apiCall req]) := by
  rw [runRetryLoop, hA]

/-- Every event the retry loop emits is an API call of its fixed request or
a 2000ms delay. -/
theorem runRetryLoop_mem (adapter : Nat → ApiOutcome) (req : ApiRequest) :
    ∀ n a e, e ∈ (runRetryLoop adapter req a n).2 →
      e = Event.apiCall req ∨ e = Event.doDelay 2000 := by
  intro n
  induction n with
  | zero =>
    intro a e h
    simp [runRetryLoop] at h
  | succ m ih =>
    intro a e h
    rcases hA : adapter a with t | er
    · rw [runRetryLoop_succ_ok adapter req a m t hA] at h
      simp at h
      exact Or.inl h
    · rw [runRetryLoop_succ_err adapter req a m er hA] at h
      by_cases hc : er.status = some 429 ∧ m + 1 > 1
      · rw [if_pos hc] at h
        simp only [List.mem_cons] at h
        rcases h with h | h | h
        · exact Or.inl h
        · exact Or.inr h
        · exact ih (a + 1) e h
      · rw [if_neg hc] at h
        simp at h
        exact Or.inl h

/-- The retry loop emits no loading-flag writes. -/
theorem runRetryLoop_filter_setLoading (adapter : Nat → ApiOutcome)
    (req : ApiRequest) (n a : Nat) :
    ((runRetryLoop adapter req a n).2).filter Event.isSetLoading = [] := by
  rw [List.filter_eq_nil_iff]
  intro e he
  rcases runRetryLoop_mem adapter req n a e he with rfl | rfl <;> simp [Event.isSetLoading]

/-- The retry loop appends no messages. -/
theorem runRetryLoop_appendsOf (adapter : Nat → ApiOutcome)
    (req : ApiRequest) (n a : Nat) :
    appendsOf (runRetryLoop adapter req a n).2 = [] := by
  rw [appendsOf, List.filterMap_eq_nil_iff]
  intro e he
  rcases runRetryLoop_mem adapter req n a e he with rfl | rfl <;> rfl

/-- Every request the retry loop records is its fixed request. -/
theorem runRetryLoop_requestsOf (adapter : Nat → ApiOutcome)
    (req : ApiRequest) (n a : Nat) (r : ApiRequest)
    (hr : r ∈ requestsOf (runRetryLoop adapter req a n).2) : r = req := by
  rw [requestsOf, List.mem_filterMap] at hr
  obtain ⟨e, he, hmap⟩ := hr
  rcases runRetryLoop_mem adapter req n a e he with rfl | rfl
  · exact (Option.some_inj.mp hmap).symm
  · exact absurd hmap (by simp)

/-- With a positive budget, the first event the retry loop emits is an API
call of its fixed request. -/
theorem runRetryLoop_head (adapter : Nat → ApiOutcome) (req : ApiRequest)
    (a r : Nat) :
    ((runRetryLoop adapter req a (r + 1)).2).head? =
      some (Event.apiCall req) := by
  rcases hA : adapter a with t | er
  · rw [runRetryLoop_succ_ok adapter req a r t hA]
    rfl
  · rw [runRetryLoop_succ_err adapter req a r er hA]
    by_cases hc : er.status = some 429 ∧ r + 1 > 1
    · rw [if_pos hc]
      rfl
    · rw [if_neg hc]
      rfl

/-- With a positive budget, the retry loop's trace starts with an API call
of its fixed request. -/
theorem runRetryLoop_cons (adapter : Nat → ApiOutcome) (req : ApiRequest)
    (a r : Nat) :
    ∃ rest,
      (runRetryLoop adapter req a (r + 1)).2 = .apiCall req :: rest := by
  rcases hA : adapter a with t | er
  · exact ⟨[], by rw [runRetryLoop_succ_ok adapter req a r t hA]⟩
  · by_cases hc : er.status = some 429 ∧ r + 1 > 1
    · refine ⟨.doDelay 2000 :: (runRetryLoop adapter req (a + 1) r).2, ?_⟩
      rw [runRetryLoop_succ_err adapter req a r er hA, if_pos hc]
    · exact ⟨[],
        by rw [runRetryLoop_succ_err adapter req a r er hA, if_neg hc]⟩

/-- `appendsOf` distributes over concatenation. -/
theorem appendsOf_append (l₁ l₂ : List Event) :
    appendsOf (l₁ ++ l₂) = appendsOf l₁ ++ appendsOf l₂ := by
  simp [appendsOf]

/-- `requestsOf` distributes over concatenation. -/
theorem requestsOf_append (l₁ l₂ : List Event) :
    requestsOf (l₁ ++ l₂) = requestsOf l₁ ++ requestsOf l₂ := by
  simp [requestsOf]

/-- Characterization of `sendCore` when the retry loop succeeds. -/
theorem sendCore_ok (adapter : Nat → ApiOutcome) (userMsg : Message)
    (req : ApiRequest) (st : ChatState) (t : String)
    (h : (runRetryLoop adapter req 0 3).1 = .ok t) :
    sendCore adapter userMsg req st =
      (⟨st.messages ++ [userMsg, ⟨t, false, none⟩], false⟩,
        [Event.setLoading true, .appendMsg userMsg] ++
          (runRetryLoop adapter req 0 3).2 ++
          [.appendMsg ⟨t, false, none⟩, .setLoading false]) := by
  simp only [sendCore]
  rw [h]

/-- Characterization of `sendCore` when the retry loop ends in an error. -/
theorem sendCore_err (adapter : Nat → ApiOutcome) (userMsg : Message)
    (req : ApiRequest) (st : ChatState) (e : ApiError)
    (h : (runRetryLoop adapter req 0 3).1 = .error e) :
    sendCore adapter userMsg req st =
      (⟨st.messages ++ [userMsg], false⟩,
        [Event.setLoading true, .appendMsg userMsg] ++
          (runRetryLoop adapter req 0 3).2 ++
          [.showToast
              (errorToast
                (if e.status = some 429 then rateLimitMessage
                  else genericMessage)),
            .setLoading false]) := by
  simp only [sendCore]
  rw [h]

/-! ## The claims -/

/-- C1: if the adapter fails with a 429 rate-limit error exactly `k` times
(`k ≤ 2`) and then succeeds, the pipeline succeeds: it appends the user
message and then the assistant message carrying the adapter's result, the
trace interleaves exactly `k` fixed 2000ms delays between the attempts
before the successful one, and no error toast is shown. -/
theorem retry_success_after_k_rate_limits (k : Nat) (hk : k ≤ 2)
    (t q : String) (st : ChatState) :
    (handleSendMessage (rateLimitInjector k t) q none st).1.messages =
        st.messages ++
          [⟨if q = "" then "Image analysis request" else q, true, none⟩,
            ⟨t, false, none⟩] ∧
    (handleSendMessage (rateLimitInjector k t) q none st).2 =
        [Event.setLoading true,
          .appendMsg
            ⟨if q = "" then "Image analysis request" else q, true, none⟩] ++
          retryEvents k ⟨"gemini-pro", false, .textOnly q⟩ ++
          [.appendMsg ⟨t, false, none⟩, .setLoading false] ∧
    delaysOf (handleSendMessage (rateLimitInjector k t) q none st).2 =
        List.replicate k 2000 ∧
    toastsOf (handleSendMessage (rateLimitInjector k t) q none st).2 = [] := by
  obtain rfl | rfl | rfl : k = 0 ∨ k = 1 ∨ k = 2 := by omega
  · exact ⟨rfl, rfl, rfl, rfl⟩
  · exact ⟨rfl, rfl, rfl, rfl⟩
  · exact ⟨rfl, rfl, rfl, rfl⟩

/-- Witness for C1 at `k = 2`: two delays, then success. -/
theorem retry_success_after_k_rate_limits_witness :
    delaysOf
        (handleSendMessage (rateLimitInjector 2 "F = ma") "q" none
          ⟨[], false⟩).2 = [2000, 2000] ∧
    (handleSendMessage (rateLimitInjector 2 "F = ma") "q" none
        ⟨[], false⟩).1.messages =
      [⟨"q", true, none⟩, ⟨"F = ma", false, none⟩] := by
  have h :=
    retry_success_after_k_rate_limits 2 (by omega) "F = ma" "q" ⟨[], false⟩
  exact ⟨h.2.2.1, h.1⟩

/-- C2: if the adapter fails with a 429 rate-limit error on every attempt,
the pipeline makes exactly 3 adapter attempts with a 2000ms delay before
each of the 2 retries, appends no assistant message, and shows the
rate-limit-specific toast rather than the generic one. -/
theorem rate_limit_exhaustion (q : String) (st : ChatState) :
    (handleSendMessage (fun _ => ApiOutcome.err ⟨some 429⟩) q none st).2 =
        [Event.setLoading true,
          .appendMsg
            ⟨if q = "" then "Image analysis request" else q, true, none⟩,
          .apiCall ⟨"gemini-pro", false, .textOnly q⟩, .doDelay 2000,
          .apiCall ⟨"gemini-pro", false, .textOnly q⟩, .doDelay 2000,
          .apiCall ⟨"gemini-pro", false, .textOnly q⟩,
          .showToast (errorToast rateLimitMessage), .setLoading false] ∧
    (requestsOf
        (handleSendMessage (fun _ => ApiOutcome.err ⟨some 429⟩) q none
          st).2).length = 3 ∧
    delaysOf
        (handleSendMessage (fun _ => ApiOutcome.err ⟨some 429⟩) q none
          st).2 = [2000, 2000] ∧
    toastsOf
        (handleSendMessage (fun _ => ApiOutcome.err ⟨some 429⟩) q none
          st).2 = [errorToast rateLimitMessage] ∧
    (handleSendMessage (fun _ => ApiOutcome.err ⟨some 429⟩) q none
        st).1.messages =
      st.messages ++
        [⟨if q = "" then "Image analysis request" else q, true, none⟩] := by
  exact ⟨rfl, rfl, rfl, rfl, rfl⟩

/-- C3: if the adapter fails on the first attempt with an error whose status
is not 429, the pipeline makes exactly one attempt, performs no delay,
appends no assistant message, and shows the generic toast. -/
theorem non_rate_limit_immediate_failure (e : ApiError)
    (he : e.status ≠ some 429) (q : String) (st : ChatState) :
    (handleSendMessage (fun _ => ApiOutcome.err e) q none st).2 =
        [Event.setLoading true,
          .appendMsg
            ⟨if q = "" then "Image analysis request" else q, true, none⟩,
          .apiCall ⟨"gemini-pro", false, .textOnly q⟩,
          .showToast (errorToast genericMessage), .setLoading false] ∧
    (requestsOf
        (handleSendMessage (fun _ => ApiOutcome.err e) q none st).2).length =
      1 ∧
    delaysOf (handleSendMessage (fun _ => ApiOutcome.err e) q none st).2 =
      [] ∧
    (handleSendMessage (fun _ => ApiOutcome.err e) q none st).1.messages =
      st.messages ++
        [⟨if q = "" then "Image analysis request" else q, true, none⟩] := by
  have hloop :
      runRetryLoop (fun _ => ApiOutcome.err e)
          ⟨"gemini-pro", false, .textOnly q⟩ 0 3 =
        (.error e, [.apiCall ⟨"gemini-pro", false, .textOnly q⟩]) := by
    rw [runRetryLoop_succ_err (fun _ => ApiOutcome.err e) _ 0 2 e rfl,
      if_neg]
    simp [he]
  have hsc :=
    sendCore_err (fun _ => ApiOutcome.err e)
      ⟨if q = "" then "Image analysis request" else q, true, none⟩
      ⟨"gemini-pro", false, .textOnly q⟩ st e (congrArg Prod.fst hloop)
  rw [congrArg Prod.snd hloop, if_neg he] at hsc
  refine ⟨?_, ?_, ?_, ?_⟩ <;>
    simp [handleSendMessage, hsc, requestsOf, delaysOf]

/-- Witness for C3 at a concrete 500-status error. -/
theorem non_rate_limit_immediate_failure_witness :
    (requestsOf
        (handleSendMessage (fun _ => ApiOutcome.err ⟨some 500⟩) "q" none
          ⟨[], false⟩).2).length = 1 ∧
    delaysOf
        (handleSendMessage (fun _ => ApiOutcome.err ⟨some 500⟩) "q" none
          ⟨[], false⟩).2 = [] := by
  have h :=
    non_rate_limit_immediate_failure ⟨some 500⟩ (by simp) "q" ⟨[], false⟩
  exact ⟨h.2.1, h.2.2.1⟩

/-- C8: clearing the chat empties the message sequence from any state,
shows only the brief confirmation toast, leaves the loading flag untouched,
and emits no API call, delay or loading-flag event. -/
theorem clear_chat_empties_messages (st : ChatState) :
    handleClearChat st = (⟨[], st.isLoading⟩, [.showToast clearToast]) ∧
    (handleClearChat st).1.messages = [] ∧
    (handleClearChat st).1.isLoading = st.isLoading ∧
    requestsOf (handleClearChat st).2 = [] ∧
    delaysOf (handleClearChat st).2 = [] ∧
    ((handleClearChat st).2).filter Event.isSetLoading = [] := by
  exact ⟨rfl, rfl, rfl, rfl, rfl, rfl⟩

/-- C9: if the image encoding rejects, the pipeline aborts before any API
call: the adapter is invoked zero times, the prior messages are untouched,
and the error surfaces as a destructive toast. -/
theorem image_encoding_failure_aborts (adapter : Nat → ApiOutcome)
    (q : String) (img : ImageFile) (st : ChatState)
    (henc : img.encodeResult = .error ()) :
    handleSendMessage adapter q (some img) st =
        (⟨st.messages, false⟩,
          [.setLoading true, .showToast (errorToast genericMessage),
            .setLoading false]) ∧
    requestsOf (handleSendMessage adapter q (some img) st).2 = [] ∧
    appendsOf (handleSendMessage adapter q (some img) st).2 = [] := by
  refine ⟨?_, ?_, ?_⟩ <;>
    simp [handleSendMessage, henc, requestsOf, appendsOf]

/-- Witness for C9 at a concrete unreadable file. -/
theorem image_encoding_failure_aborts_witness :
    requestsOf
        (handleSendMessage (fun _ => ApiOutcome.ok "t") "q"
          (some ⟨"image/png", "blob:1", .error ()⟩) ⟨[], false⟩).2 = [] ∧
    (handleSendMessage (fun _ => ApiOutcome.ok "t") "q"
        (some ⟨"image/png", "blob:1", .error ()⟩) ⟨[], false⟩).1.messages =
      [] := by
  have h :=
    image_encoding_failure_aborts (fun _ => ApiOutcome.ok "t") "q"
      ⟨"image/png", "blob:1", .error ()⟩ ⟨[], false⟩ rfl
  exact ⟨h.2.1, congrArg (fun p => p.1.messages) h.1⟩

/-- The final state of `sendCore` always has the loading flag cleared, and
its trace writes the flag exactly twice: `true` first, `false` last. -/
theorem sendCore_busy (adapter : Nat → ApiOutcome) (userMsg : Message)
    (req : ApiRequest) (st : ChatState) :
    (sendCore adapter userMsg req st).1.isLoading = false ∧
    ∃ mid,
      (sendCore adapter userMsg req st).2 =
          Event.setLoading true :: (mid ++ [Event.setLoading false]) ∧
      mid.filter Event.isSetLoading = [] := by
  rcases hres : (runRetryLoop adapter req 0 3).1 with e | t
  · rw [sendCore_err adapter userMsg req st e hres]
    refine ⟨rfl,
      Event.appendMsg userMsg ::
        ((runRetryLoop adapter req 0 3).2 ++
          [Event.showToast
              (errorToast
                (if e.status = some 429 then rateLimitMessage
                  else genericMessage))]), ?_, ?_⟩
    · simp
    · simp [List.filter_append, runRetryLoop_filter_setLoading,
        Event.isSetLoading]
  · rw [sendCore_ok adapter userMsg req st t hres]
    refine ⟨rfl,
      Event.appendMsg userMsg ::
        ((runRetryLoop adapter req 0 3).2 ++
          [Event.appendMsg ⟨t, false, none⟩]), ?_, ?_⟩
    · simp
    · simp [List.filter_append, runRetryLoop_filter_setLoading,
        Event.isSetLoading]

/-- The first message `sendCore` appends is the user message. -/
theorem sendCore_appends_head (adapter : Nat → ApiOutcome)
    (userMsg : Message) (req : ApiRequest) (st : ChatState) :
    (appendsOf (sendCore adapter userMsg req st).2).head? = some userMsg := by
  rcases hres : (runRetryLoop adapter req 0 3).1 with e | t
  · rw [sendCore_err adapter userMsg req st e hres, appendsOf_append,
      appendsOf_append, runRetryLoop_appendsOf]
    rfl
  · rw [sendCore_ok adapter userMsg req st t hres, appendsOf_append,
      appendsOf_append, runRetryLoop_appendsOf]
    rfl

/-- Every request `sendCore` records is its fixed request. -/
theorem sendCore_requests (adapter : Nat → ApiOutcome) (userMsg : Message)
    (req : ApiRequest) (st : ChatState) (r : ApiRequest)
    (hr : r ∈ requestsOf (sendCore adapter userMsg req st).2) : r = req := by
  have main : ∀ tail : List Event,
      (∀ ev ∈ tail,
        (match ev with
          | Event.apiCall r => some r
          | _ => none) = (none : Option ApiRequest)) →
      r ∈ requestsOf
          ([Event.setLoading true, .appendMsg userMsg] ++
            (runRetryLoop adapter req 0 3).2 ++ tail) →
      r = req := by
    intro tail htail hmem
    rw [requestsOf, List.mem_filterMap] at hmem
    obtain ⟨ev, hev, hmap⟩ := hmem
    simp only [List.mem_append, List.mem_cons, List.not_mem_nil,
      or_false] at hev
    rcases hev with ((rfl | rfl) | hev) | hev
    · exact Option.noConfusion hmap
    · exact Option.noConfusion hmap
    · rcases runRetryLoop_mem adapter req 3 0 ev hev with rfl | rfl
      · exact (Option.some_inj.mp hmap).symm
      · exact Option.noConfusion hmap
    · rw [htail ev hev] at hmap
      exact Option.noConfusion hmap
  rcases hres : (runRetryLoop adapter req 0 3).1 with e | t
  · rw [sendCore_err adapter userMsg req st e hres] at hr
    refine main _ ?_ hr
    intro ev hev
    simp only [List.mem_cons, List.not_mem_nil, or_false] at hev
    rcases hev with rfl | rfl <;> rfl
  · rw [sendCore_ok adapter userMsg req st t hres] at hr
    refine main _ ?_ hr
    intro ev hev
    simp only [List.mem_cons, List.not_mem_nil, or_false] at hev
    rcases hev with rfl | rfl <;> rfl

/-- The first request `sendCore` records is its fixed request. -/
theorem sendCore_requests_head (adapter : Nat → ApiOutcome)
    (userMsg : Message) (req : ApiRequest) (st : ChatState) :
    (requestsOf (sendCore adapter userMsg req st).2).head? = some req := by
  obtain ⟨rest, hrest⟩ := runRetryLoop_cons adapter req 0 2
  have h3 : (runRetryLoop adapter req 0 3).2 = .apiCall req :: rest := hrest
  rcases hres : (runRetryLoop adapter req 0 3).1 with e | t
  · rw [sendCore_err adapter userMsg req st e hres, h3]
    rfl
  · rw [sendCore_ok adapter userMsg req st t hres, h3]
    rfl

/-- C6: on every path (text-only, image, encoding failure, any adapter
behaviour) the busy flag is set to `true` first, written exactly twice in
the whole run, set to `false` last, and the final state has it cleared. -/
theorem busy_flag_protocol (adapter : Nat → ApiOutcome) (q : String)
    (image : Option ImageFile) (st : ChatState) :
    (handleSendMessage adapter q image st).1.isLoading = false ∧
    ∃ mid,
      (handleSendMessage adapter q image st).2 =
          Event.setLoading true :: (mid ++ [Event.setLoading false]) ∧
      mid.filter Event.isSetLoading = [] := by
  rcases image with _ | img
  · exact sendCore_busy adapter _ _ st
  · rcases henc : img.encodeResult with u | b
    · cases u
      refine ⟨?_, [Event.showToast (errorToast genericMessage)], ?_, rfl⟩
      · simp [handleSendMessage, henc]
      · simp [handleSendMessage, henc]
    · simp only [handleSendMessage, henc]
      exact sendCore_busy adapter _ _ st

/-- C7: the first message appended by any submission (whose image, when
present, encodes successfully) is a user message whose content is the
submitted text, or the placeholder label when the text is empty, and whose
image reference is the display reference exactly when an image was
provided. -/
theorem user_message_shape (adapter : Nat → ApiOutcome) (q : String)
    (image : Option ImageFile) (st : ChatState)
    (henc : ∀ img, image = some img → ∃ b, img.encodeResult = Except.ok b) :
    ∃ m,
      (appendsOf (handleSendMessage adapter q image st).2).head? = some m ∧
      m.isUser = true ∧
      m.content = (if q = "" then "Image analysis request" else q) ∧
      m.image = image.map ImageFile.objectUrl := by
  rcases image with _ | img
  · exact ⟨⟨if q = "" then "Image analysis request" else q, true, none⟩,
      sendCore_appends_head adapter _ _ st, rfl, rfl, rfl⟩
  · obtain ⟨b, hb⟩ := henc img rfl
    refine ⟨⟨if q = "" then "Image analysis request" else q, true,
      some img.objectUrl⟩, ?_, rfl, rfl, rfl⟩
    simp only [handleSendMessage, hb]
    exact sendCore_appends_head adapter _ _ st

/-- Witness for C7: an image-only submission appends the placeholder user
message with the display reference attached. -/
theorem user_message_shape_witness :
    ∃ m,
      (appendsOf
          (handleSendMessage (fun _ => ApiOutcome.ok "t") ""
            (some ⟨"image/png", "blob:1", .ok "data:image/png;base64,AAAA"⟩)
            ⟨[], false⟩).2).head? = some m ∧
      m.isUser = true ∧
      m.content = "Image analysis request" ∧
      m.image = some "blob:1" := by
  have h :=
    user_message_shape (fun _ => ApiOutcome.ok "t") ""
      (some ⟨"image/png", "blob:1", .ok "data:image/png;base64,AAAA"⟩)
      ⟨[], false⟩
      (by intro img himg; cases himg; exact ⟨_, rfl⟩)
  simpa using h

/-- A submission whose image encodes successfully and whose adapter call
succeeds immediately appends exactly its user message and its assistant
message and clears the loading flag. -/
theorem handleSendMessage_success (r q : String) (image : Option ImageFile)
    (st : ChatState)
    (henc : ∀ img, image = some img → ∃ b, img.encodeResult = Except.ok b) :
    (handleSendMessage (fun _ => ApiOutcome.ok r) q image st).1 =
      ⟨st.messages ++
          [⟨if q = "" then "Image analysis request" else q, true,
              image.map ImageFile.objectUrl⟩,
            ⟨r, false, none⟩],
        false⟩ := by
  have hloop : ∀ req : ApiRequest,
      (runRetryLoop (fun _ => ApiOutcome.ok r) req 0 3).1 = .ok r :=
    fun req => by
      rw [runRetryLoop_succ_ok (fun _ => ApiOutcome.ok r) req 0 2 r rfl]
  rcases image with _ | img
  · exact congrArg Prod.fst
      (sendCore_ok (fun _ => ApiOutcome.ok r) _ _ st r (hloop _))
  · obtain ⟨b, hb⟩ := henc img rfl
    simp only [handleSendMessage, hb]
    exact congrArg Prod.fst
      (sendCore_ok (fun _ => ApiOutcome.ok r) _ _ st r (hloop _))

/-- An encoding-successful submission satisfies the image-side obligation of
`handleSendMessage_success`. -/
theorem Submission.encodes_elim (s : Submission) (hs : s.encodes = true) :
    ∀ img, s.image = some img → ∃ b, img.encodeResult = Except.ok b := by
  intro img h
  simp only [Submission.encodes, h] at hs
  rcases hr : img.encodeResult with u | b
  · rw [hr] at hs
    exact absurd hs (by simp)
  · exact ⟨b, rfl⟩

/-- Running a list of encoding-successful, adapter-successful submissions
appends two messages per submission, in submission order. -/
theorem submitAll_messages (subs : List Submission) :
    ∀ st : ChatState, (∀ s ∈ subs, s.encodes = true) →
      (submitAll subs st).messages =
        st.messages ++
          subs.flatMap (fun s => [s.userMessage, s.assistantMessage]) := by
  induction subs with
  | nil =>
    intro st _
    simp [submitAll]
  | cons s rest ih =>
    intro st h
    have hs : s.encodes = true := h s (List.mem_cons_self s rest)
    have hrest : ∀ x ∈ rest, x.encodes = true :=
      fun x hx => h x (List.mem_cons_of_mem s hx)
    rw [submitAll,
      handleSendMessage_success s.reply s.query s.image st
        (Submission.encodes_elim s hs),
      ih _ hrest]
    simp [Submission.userMessage, Submission.assistantMessage]

/-- Two messages per submission: the flattened transcript has length `2N`. -/
theorem flatMap_pair_length (subs : List Submission) :
    (subs.flatMap fun s => [s.userMessage, s.assistantMessage]).length =
      2 * subs.length := by
  induction subs with
  | nil => rfl
  | cons s rest ih =>
    simp only [List.flatMap_cons, List.length_append, List.length_cons,
      List.length_nil, ih]
    omega

/-- C5: after a sequence of `N` submissions that all succeed (and whose
images, when present, encode successfully), the conversation holds exactly
`2N` messages: for each submission, its user message immediately followed by
its assistant message, and every assistant message carries no image
reference. -/
theorem conversation_growth (subs : List Submission)
    (h : ∀ s ∈ subs, s.encodes = true) (b : Bool) :
    (submitAll subs ⟨[], b⟩).messages =
        subs.flatMap (fun s => [s.userMessage, s.assistantMessage]) ∧
    (submitAll subs ⟨[], b⟩).messages.length = 2 * subs.length ∧
    ∀ s ∈ subs, s.assistantMessage.image = none := by
  refine ⟨?_, ?_, fun s _ => rfl⟩
  · simpa using submitAll_messages subs ⟨[], b⟩ h
  · rw [submitAll_messages subs ⟨[], b⟩ h]
    simpa using flatMap_pair_length subs

/-- Witness for C5: one successful submission yields exactly two messages. -/
theorem conversation_growth_witness :
    (submitAll [⟨"q", none, "F = ma"⟩] ⟨[], false⟩).messages =
        [⟨"q", true, none⟩, ⟨"F = ma", false, none⟩] ∧
    (submitAll [⟨"q", none, "F = ma"⟩] ⟨[], false⟩).messages.length = 2 := by
  have h :=
    conversation_growth [⟨"q", none, "F = ma"⟩]
      (by
        intro s hs
        rw [List.mem_singleton] at hs
        subst hs
        rfl)
      false
  exact ⟨h.1, h.2.1⟩

/-- C10: for an image submission with empty text, the prompt string sent to
the model is the fallback "Please analyze this image", while the stored user
message carries the distinct placeholder "Image analysis request". -/
theorem image_prompt_fallback (adapter : Nat → ApiOutcome) (st : ChatState)
    (img : ImageFile) (b : String) (hb : img.encodeResult = .ok b)
    (hne : b ≠ "") :
    (requestsOf (handleSendMessage adapter "" (some img) st).2).head? =
        some ⟨"gemini-pro", false,
          .multimodal ((splitCommas b)[1]?) img.mimeType
            "Please analyze this image"⟩ ∧
    (appendsOf (handleSendMessage adapter "" (some img) st).2).head? =
        some ⟨"Image analysis request", true, some img.objectUrl⟩ ∧
    ("Please analyze this image" : String) ≠ "Image analysis request" := by
  refine ⟨?_, ?_, by decide⟩
  · simp only [handleSendMessage, hb, if_neg hne]
    exact sendCore_requests_head adapter _ _ st
  · simp only [handleSendMessage, hb]
    exact sendCore_appends_head adapter _ _ st

/-- Witness for C10 at a concrete data-URL. -/
theorem image_prompt_fallback_witness :
    (requestsOf
        (handleSendMessage (fun _ => ApiOutcome.ok "t") ""
          (some ⟨"image/png", "blob:1", .ok "data:image/png;base64,AAAA"⟩)
          ⟨[], false⟩).2).head? =
      some ⟨"gemini-pro", false,
        .multimodal (some "AAAA") "image/png" "Please analyze this image"⟩ ∧
    (appendsOf
        (handleSendMessage (fun _ => ApiOutcome.ok "t") ""
          (some ⟨"image/png", "blob:1", .ok "data:image/png;base64,AAAA"⟩)
          ⟨[], false⟩).2).head? =
      some ⟨"Image analysis request", true, some "blob:1"⟩ := by
  have h :=
    image_prompt_fallback (fun _ => ApiOutcome.ok "t") ⟨[], false⟩
      ⟨"image/png", "blob:1", .ok "data:image/png;base64,AAAA"⟩
      "data:image/png;base64,AAAA" rfl (by decide)
  refine ⟨?_, ?_⟩
  · rw [h.1]
    decide
  · rw [h.2.1]

/-- C4 as stated is false on the code: a text-only submission (no image
payload) through the image-capable variant sends its outbound request to
model `gemini-pro`, not `gemini-2.0-flash-exp`. -/
theorem model_identifier_counterexample :
    requestsOf
        (handleSendMessage (fun _ => ApiOutcome.ok "ok") "hi" none
          ⟨[], false⟩).2 =
      [⟨"gemini-pro", false, .textOnly "hi"⟩] ∧
    ("gemini-pro" : String) ≠ "gemini-2.0-flash-exp" := by
  exact ⟨rfl, by decide⟩

/-- C4 (amended): every outbound request of the image-capable variant uses
model `gemini-pro` — for text-only and image submissions alike — and every
outbound request of the text-only variant uses `gemini-2.0-flash-exp`. -/
theorem model_identifier_per_variant :
    (∀ (adapter : Nat → ApiOutcome) (q : String) (image : Option ImageFile)
        (st : ChatState) (r : ApiRequest),
        r ∈ requestsOf (handleSendMessage adapter q image st).2 →
          r.model = "gemini-pro") ∧
    (∀ (outcome : ApiOutcome) (q : String) (st : ChatState)
        (r : ApiRequest),
        r ∈ requestsOf (TextChat.handleSendMessage outcome q st).2 →
          r.model = "gemini-2.0-flash-exp") := by
  constructor
  · intro adapter q image st r hr
    rcases image with _ | img
    · rw [sendCore_requests adapter _ ⟨"gemini-pro", false, .textOnly q⟩ st
        r hr]
    · rcases henc : img.encodeResult with u | b
      · simp only [handleSendMessage, henc] at hr
        simp [requestsOf] at hr
      · simp only [handleSendMessage, henc] at hr
        by_cases hbe : b = ""
        · rw [if_pos hbe] at hr
          rw [sendCore_requests adapter _ _ st r hr]
        · rw [if_neg hbe] at hr
          rw [sendCore_requests adapter _ _ st r hr]
  · intro outcome q st r hr
    rcases outcome with t | e
    · simp only [TextChat.handleSendMessage] at hr
      simp [requestsOf] at hr
      rw [hr]
    · simp only [TextChat.handleSendMessage] at hr
      simp [requestsOf] at hr
      rw [hr]

/-- Witness for the amended C4, one concrete request per variant. -/
theorem model_identifier_per_variant_witness :
    (⟨"gemini-pro", false, RequestPayload.textOnly "q"⟩ : ApiRequest).model =
        "gemini-pro" ∧
    (⟨"gemini-2.0-flash-exp", true, RequestPayload.textOnly "q"⟩ :
        ApiRequest).model = "gemini-2.0-flash-exp" :=
  ⟨model_identifier_per_variant.1 (fun _ => ApiOutcome.ok "t") "q" none
      ⟨[], false⟩ _ (by decide),
    model_identifier_per_variant.2 (ApiOutcome.ok "t") "q" ⟨[], false⟩ _
      (by decide)⟩
